import Mathlib

/- Verification development for the kawai-network/whisper native engine whose
   call surface is declared in src/native/gowhisper.h (load_model,
   load_model_vad, vad, transcribe, and the index-addressed read accessors
   get_segment_text / get_segment_t0 / get_segment_t1 / n_tokens /
   get_token_id / get_segment_speaker_turn_next).  The repository ships only
   that interface header; the engine behind it (ModelStore, VadSegmenter,
   TranscriptionPipeline, ResultBuffer) is modelled from the specification,
   and the claims are settled against that model.  PCM samples are modelled
   as integers (the engine never computes on them: they are only handed to
   the opaque models), with 0 the silent sample. -/

/-- Modelled from the spec: the error taxonomy of §7 for the engine behind
gowhisper.h, whose implementation is not in the tree.  The C surface reports
these as distinct non-zero status codes; we model them as an error sum. -/
inductive EngineError
  | ModelLoadError
  | ModelNotLoadedError
  | InvalidLanguageError
  | DecodeError
  deriving DecidableEq, Repr

/-- Modelled from the spec: a decoded sub-word token with its per-token
timestamps and the end-of-segment / pause-boundary signal emitted by the
acoustic model (§4.3 steps 4–5). -/
structure TimedToken where
  id : Int
  ts0 : Int
  ts1 : Int
  boundary : Bool
  deriving DecidableEq, Repr

/-- Modelled from the spec: the acoustic model is an opaque black box
(§1 non-goals, §9) exposing deterministic decoding of a PCM window under a
language and prompt into timed tokens, detokenization of a token id, a
speaker-turn discontinuity check at a segment boundary (§4.3 step 7), and a
predicate recording whether activations stay finite on an input (the
`DecodeError` trigger of §7). -/
structure AcousticModel where
  decode : List Int → String → String → List TimedToken
  tokenText : Int → String
  speakerTurn : List TimedToken → Bool
  finiteActivations : List Int → Bool

/-- Modelled from the spec: a transcribed Segment record of §3: start/end
timestamps, decoded text, the ordered token ids, and the speaker-turn flag. -/
structure Segment where
  text : String
  t0 : Int
  t1 : Int
  tokens : List Int
  speaker_turn_next : Bool
  deriving DecidableEq, Repr

/-- Modelled from the spec: the scaled speech-probability threshold above
which an analysis window counts as speech (§4.2). -/
def vadThreshold : Nat := 50

/-- Modelled from the spec: the VAD model is an opaque black box producing a
speech-probability score per analysis window (§4.2).  Per the glossary, a VAD
model classifies audio regions as speech vs. non-speech, so a pure-silence
(all-zero) window scores below the speech threshold; that contract is part of
what a VAD model is. -/
structure VadModel where
  score : List Int → Nat
  silence_below : ∀ w : List Int, (∀ x ∈ w, x = 0) → score w < vadThreshold

/-- Modelled from the spec: the engine's process-wide state: the ModelStore's
two slots (at most one acoustic and one VAD model resident, §3) and the
single-slot ResultBuffer holding the most recent transcription's segments. -/
structure EngineState where
  acousticModel : Option AcousticModel
  vadModel : Option VadModel
  results : List Segment

/-- Modelled from the spec: the initial state: no model resident, no
transcription run yet (`segment_count() == 0` before any run, §4.4). -/
def initState : EngineState :=
  { acousticModel := none, vadModel := none, results := [] }

/-- Modelled from the spec: hardware concurrency bound used to clamp the
requested thread count (§4.3 step 1). -/
def hwConcurrency : Nat := 8

/-- Modelled from the spec: thread count clamped to [1, hardware
concurrency] (§4.3 step 1). -/
def clampThreads (t : Nat) : Nat := min (max t 1) hwConcurrency

/-- Modelled from the spec: the recognized language codes plus the
auto-detect sentinel (§4.3 step 1). -/
def recognizedLangs : List String :=
  ["en", "de", "fr", "es", "it", "pt", "ja", "zh", "ko", "ru", "auto"]

/-- Modelled from the spec: language validation: a recognized code or the
auto-detect sentinel (§4.3 step 1). -/
def isValidLang (lang : String) : Bool := recognizedLangs.contains lang

/-- Modelled from the spec: the fixed pivot language forced as decoding
target when `translate` is set (§4.3 step 6, glossary). -/
def pivotLang : String := "en"

/-- Modelled from the spec: effective decoding target language (§4.3
step 6). -/
def effLang (lang : String) (translate : Bool) : String :=
  if translate then pivotLang else lang

/-- Modelled from the spec: grouping of the decoded token stream into
segments at the detected sentence/pause boundaries signalled by the model
(§4.3 step 5).  A boundary token closes the current group. -/
def groupTokens : List TimedToken → List (List TimedToken)
  | [] => []
  | t :: ts =>
    if t.boundary then
      [t] :: groupTokens ts
    else
      match groupTokens ts with
      | [] => [[t]]
      | g :: gs => (t :: g) :: gs

/-- Modelled from the spec: detokenization: the concatenation of the tokens'
text forms yields the segment text (§3, Token). -/
def detok (m : AcousticModel) (g : List TimedToken) : String :=
  String.join (g.map (fun t => m.tokenText t.id))

/-- Modelled from the spec: §4.3 step 5: each Segment's `t0`/`t1` are
computed from its token timestamps and made monotonic and non-overlapping
with the previous Segment's range (clamping against the previous end), and
step 7: `speaker_turn_next` is the model's discontinuity check when
`tdrz` is set, otherwise always false. -/
def buildSegments (m : AcousticModel) (tdrz : Bool) :
    Int → List (List TimedToken) → List Segment
  | _, [] => []
  | prev, g :: gs =>
    let rawT0 := match g with
      | [] => prev
      | t :: _ => t.ts0
    let rawT1 := match g.getLast? with
      | none => prev
      | some t => t.ts1
    let t0 := max prev rawT0
    let t1 := max t0 rawT1
    { text := detok m g
      t0 := t0
      t1 := t1
      tokens := g.map (fun t => t.id)
      speaker_turn_next := tdrz && m.speakerTurn g } ::
      buildSegments m tdrz t1 gs

/-- Modelled from the spec: the TranscriptionPipeline run of §4.3 as a pure
function of the resident acoustic model and the call arguments, returning
the call's result (segment count or error) together with the Segment
sequence that replaces the ResultBuffer.  Step order follows the spec:
validate preconditions (model resident, language recognized or auto), empty
buffer short-circuits to a successful empty result, a non-finite-activation
failure yields `DecodeError`, otherwise the buffer is decoded in one pass
(§4.3 step 3 allows the full buffer as one window), tokens are grouped into
segments, and the count is returned.  On any failure the ResultBuffer is
left as an explicit empty generation (the documented choice of §7). -/
def transcribeCore (am : Option AcousticModel) (lang : String)
    (translate : Bool) (tdrz : Bool) (pcm : List Int) (prompt : String) :
    Except EngineError Nat × List Segment :=
  match am with
  | none => (.error .ModelNotLoadedError, [])
  | some m =>
    if isValidLang lang then
      if pcm.isEmpty then
        (.ok 0, [])
      else
        if m.finiteActivations pcm then
          let segs := buildSegments m tdrz 0
            (groupTokens (m.decode pcm (effLang lang translate) prompt))
          (.ok segs.length, segs)
        else
          (.error .DecodeError, [])
    else
      (.error .InvalidLanguageError, [])

/-- Modelled from the spec: the `transcribe` entry point of gowhisper.h: its
implementation is not in the tree.  It clamps the thread count (the model's
decoding does not depend on it: decoding is deterministic for fixed inputs),
runs the pipeline against the resident acoustic model, wholesale-replaces
the ResultBuffer, and returns the segment count or an error status. -/
def transcribe (threads : Nat) (lang : String) (translate : Bool)
    (tdrz : Bool) (pcm : List Int) (prompt : String) (st : EngineState) :
    Except EngineError Nat × EngineState :=
  let r := transcribeCore st.acousticModel lang translate tdrz pcm prompt
  (r.1, { st with results := r.2 })

/-- Modelled from the spec: fixed-size VAD analysis window (§4.2). -/
def vadWindowSize : Nat := 512

/-- Modelled from the spec: window stride; smaller than the window size, so
consecutive windows overlap (§4.2). -/
def vadWindowStep : Nat := 256

/-- Modelled from the spec: minimum speech duration in windows
(hysteresis, §4.2). -/
def vadMinSpeechWindows : Nat := 2

/-- Modelled from the spec: minimum silence duration in windows
(hysteresis, §4.2). -/
def vadMinSilenceWindows : Nat := 2

/-- Modelled from the spec: fixed padding in samples added at each span's
edges (§4.2). -/
def vadPad : Nat := 64

/-- Modelled from the spec: the number of analysis windows slid across a
buffer of the given length: one per stride offset strictly inside the
buffer. -/
def numWindows (len : Nat) : Nat :=
  (len + vadWindowStep - 1) / vadWindowStep

/-- Modelled from the spec: the k-th analysis window of the buffer. -/
def vadWindow (pcm : List Int) (k : Nat) : List Int :=
  (pcm.drop (k * vadWindowStep)).take vadWindowSize

/-- Modelled from the spec: the per-window speech flags: one boolean per
analysis window, true when the window's speech-probability score reaches the
threshold (§4.2). -/
def vadFlags (m : VadModel) (pcm : List Int) : List Bool :=
  (List.range (numWindows pcm.length)).map
    (fun k => decide (vadThreshold ≤ m.score (vadWindow pcm k)))

/-- Modelled from the spec: merging of contiguous above-threshold windows
into runs of window indices (§4.2).  `k` is the index of the next flag and
`cur` the run currently open, if any. -/
def runsAux : List Bool → Nat → Option (Nat × Nat) → List (Nat × Nat)
  | [], _, none => []
  | [], _, some r => [r]
  | b :: bs, k, none =>
    if b then runsAux bs (k + 1) (some (k, k)) else runsAux bs (k + 1) none
  | b :: bs, k, some (s, e) =>
    if b then runsAux bs (k + 1) (some (s, k))
    else (s, e) :: runsAux bs (k + 1) none

/-- Modelled from the spec: the maximal runs of consecutive speech-flagged
windows, as inclusive (first, last) window-index pairs. -/
def runsOf (flags : List Bool) : List (Nat × Nat) := runsAux flags 0 none

/-- Modelled from the spec: minimum-silence hysteresis: two runs separated by
a silence gap shorter than the minimum are merged into one (§4.2). -/
def mergeCloseAux : Nat × Nat → List (Nat × Nat) → List (Nat × Nat)
  | r, [] => [r]
  | (s1, e1), (s2, e2) :: rest =>
    if s2 - e1 ≤ vadMinSilenceWindows then
      mergeCloseAux (s1, e2) rest
    else
      (s1, e1) :: mergeCloseAux (s2, e2) rest

/-- Modelled from the spec: minimum-silence hysteresis over a whole run
list (§4.2). -/
def mergeClose : List (Nat × Nat) → List (Nat × Nat)
  | [] => []
  | r :: rs => mergeCloseAux r rs

/-- Modelled from the spec: the hysteresis-filtered speech runs of a buffer:
close runs merged, then runs shorter than the minimum speech duration
dropped (§4.2). -/
def vadRuns (m : VadModel) (pcm : List Int) : List (Nat × Nat) :=
  (mergeClose (runsOf (vadFlags m pcm))).filter
    (fun r => decide (vadMinSpeechWindows ≤ r.2 + 1 - r.1))

/-- Modelled from the spec: conversion of a window-index run into a sample
span, padding each edge and clamping to the buffer (§4.2). -/
def toSpan (len : Nat) (r : Nat × Nat) : Nat × Nat :=
  (r.1 * vadWindowStep - vadPad,
   min len (r.2 * vadWindowStep + vadWindowSize + vadPad))

/-- Modelled from the spec: the VadSegmenter of §4.2: speech spans of the
buffer as ordered (start, end) sample-offset pairs. -/
def vadSpans (m : VadModel) (pcm : List Int) : List (Nat × Nat) :=
  (vadRuns m pcm).map (toSpan pcm.length)

/-- Modelled from the spec: the `vad` entry point of gowhisper.h: its
implementation is not in the tree.  Fails with `ModelNotLoadedError` when no
VAD model is resident, otherwise returns the segmenter's span sequence. -/
def vad (st : EngineState) (pcm : List Int) :
    Except EngineError (List (Nat × Nat)) :=
  match st.vadModel with
  | none => .error .ModelNotLoadedError
  | some m => .ok (vadSpans m pcm)

/-- Modelled from the spec: `segment_count()` of §4.4: the number of
Segments from the most recent transcription generation. -/
def segment_count (st : EngineState) : Nat := st.results.length

/-- Modelled from the spec: the shared bounds check of the index-addressed
read accessors of §4.4: a defined empty result (the fail-closed sentinel)
for any index outside [0, segment_count), including negative ones — the C
surface takes signed `int` indices. -/
def segAt (st : EngineState) (i : Int) : Option Segment :=
  if 0 ≤ i then st.results.get? i.toNat else none

/-- Modelled from the spec: `text(i)` of §4.4 (`get_segment_text` in
gowhisper.h); fails closed out of range. -/
def get_segment_text (st : EngineState) (i : Int) : Option String :=
  (segAt st i).map Segment.text

/-- Modelled from the spec: `t0(i)` of §4.4 (`get_segment_t0` in
gowhisper.h); fails closed out of range. -/
def get_segment_t0 (st : EngineState) (i : Int) : Option Int :=
  (segAt st i).map Segment.t0

/-- Modelled from the spec: `t1(i)` of §4.4 (`get_segment_t1` in
gowhisper.h); fails closed out of range. -/
def get_segment_t1 (st : EngineState) (i : Int) : Option Int :=
  (segAt st i).map Segment.t1

/-- Modelled from the spec: `token_count(i)` of §4.4 (`n_tokens` in
gowhisper.h); fails closed out of range. -/
def n_tokens (st : EngineState) (i : Int) : Option Nat :=
  (segAt st i).map (fun s => s.tokens.length)

/-- Modelled from the spec: `token_id(i, j)` of §4.4 (`get_token_id` in
gowhisper.h); fails closed when either index is out of range. -/
def get_token_id (st : EngineState) (i : Int) (j : Int) : Option Int :=
  (segAt st i).bind (fun s => if 0 ≤ j then s.tokens.get? j.toNat else none)

/-- Modelled from the spec: `speaker_turn_next(i)` of §4.4
(`get_segment_speaker_turn_next` in gowhisper.h); fails closed out of
range. -/
def get_segment_speaker_turn_next (st : EngineState) (i : Int) :
    Option Bool :=
  (segAt st i).map Segment.speaker_turn_next

/-- Default segment used as the `getD` placeholder in statements; never the
value actually read at an in-range index. -/
def dummySeg : Segment :=
  { text := "", t0 := 0, t1 := 0, tokens := [], speaker_turn_next := false }

/-- A concrete acoustic model used to exercise the pipeline on closed
inputs: it decodes any non-empty buffer into two boundary-terminated tokens
and always keeps activations finite. -/
def demoModel : AcousticModel :=
  { decode := fun _ _ _ =>
      [{ id := 5, ts0 := 0, ts1 := 10, boundary := true },
       { id := 7, ts0 := 12, ts1 := 20, boundary := true }]
    tokenText := fun _ => "a"
    speakerTurn := fun _ => false
    finiteActivations := fun _ => true }

/-- A concrete VAD model: the score of a window is its number of non-zero
samples; an all-zero window scores 0, below the threshold. -/
def demoVadModel : VadModel :=
  { score := fun w => (w.filter (fun x => decide (x ≠ 0))).length
    silence_below := by
      intro w hw
      have h : w.filter (fun x => decide (x ≠ 0)) = [] := by
        rw [List.filter_eq_nil_iff]
        intro a ha
        simp [hw a ha]
      show (w.filter (fun x => decide (x ≠ 0))).length < vadThreshold
      rw [h]
      simp [vadThreshold] }

/-- A concrete engine state with both models resident and an empty
ResultBuffer. -/
def demoState : EngineState :=
  { acousticModel := some demoModel, vadModel := some demoVadModel,
    results := [] }

/-- A concrete successful transcription run against `demoState`. -/
def demoRun : Except EngineError Nat × EngineState :=
  transcribe 4 "en" false false [1, 2, 3] "" demoState

/-- Lower bound on the window indices of the runs still to be produced by
`runsAux`: the start of the open run, or the next flag index. -/
def curLo (k : Nat) : Option (Nat × Nat) → Nat
  | none => k
  | some p => p.1

theorem get?_eq_getD_of_lt {α : Type} (l : List α) (n : Nat) (d : α)
    (h : n < l.length) : l.get? n = some (l.getD n d) := by
  rw [List.getD_eq_get l d h]
  rw [List.get?_eq_some]
  exact ⟨h, rfl⟩

theorem getD_mem {α : Type} (l : List α) (n : Nat) (d : α)
    (h : n < l.length) : l.getD n d ∈ l := by
  rw [List.getD_eq_get l d h]
  exact List.get_mem l n h

theorem chain_getD (l : List Segment) (i : Nat)
    (hpw : List.Chain' (fun a b => a.t1 ≤ b.t0) l) (h : i + 1 < l.length) :
    (l.getD i dummySeg).t1 ≤ (l.getD (i + 1) dummySeg).t0 := by
  rw [List.getD_eq_get l dummySeg (by omega), List.getD_eq_get l dummySeg h]
  exact List.chain'_iff_get.mp hpw i (by omega)

theorem segAt_eq_none (st : EngineState) (i : Int)
    (h : ¬ (0 ≤ i ∧ i.toNat < segment_count st)) : segAt st i = none := by
  unfold segAt
  by_cases h0 : 0 ≤ i
  · rw [if_pos h0, List.get?_eq_none]
    push_neg at h
    exact h h0
  · rw [if_neg h0]

theorem segAt_eq_some (st : EngineState) (i : Int) (h0 : 0 ≤ i)
    (h1 : i.toNat < segment_count st) :
    segAt st i = some (st.results.getD i.toNat dummySeg) := by
  unfold segAt
  rw [if_pos h0]
  exact get?_eq_getD_of_lt _ _ _ h1

theorem segAt_natCast (st : EngineState) (i : Nat)
    (h : i < st.results.length) :
    segAt st (i : Int) = some (st.results.getD i dummySeg) := by
  unfold segAt
  rw [if_pos (Int.natCast_nonneg i), Int.toNat_natCast]
  exact get?_eq_getD_of_lt _ _ _ h

theorem buildSegments_mem (m : AcousticModel) (tdrz : Bool)
    (gs : List (List TimedToken)) :
    ∀ (prev : Int), ∀ s ∈ buildSegments m tdrz prev gs,
      prev ≤ s.t0 ∧ s.t0 ≤ s.t1 := by
  induction gs with
  | nil => intro prev s hs; simp [buildSegments] at hs
  | cons g gs ih =>
    intro prev s hs
    simp only [buildSegments] at hs
    rcases List.mem_cons.mp hs with rfl | hs'
    · constructor
      · exact le_max_left _ _
      · exact le_max_left _ _
    · obtain ⟨h1, h2⟩ := ih _ s hs'
      refine ⟨le_trans ?_ h1, h2⟩
      exact le_trans (le_max_left _ _) (le_max_left _ _)

theorem buildSegments_chain (m : AcousticModel) (tdrz : Bool)
    (gs : List (List TimedToken)) :
    ∀ (prev : Int),
      List.Chain' (fun a b => a.t1 ≤ b.t0) (buildSegments m tdrz prev gs) := by
  induction gs with
  | nil => intro prev; simp [buildSegments]
  | cons g gs ih =>
    intro prev
    simp only [buildSegments]
    refine List.chain'_cons'.mpr ⟨?_, ih _⟩
    intro b hb
    have hmem := List.mem_of_mem_head? hb
    exact (buildSegments_mem m tdrz gs _ b hmem).1

theorem transcribeCore_error (am : Option AcousticModel) (lang : String)
    (tr td : Bool) (pcm : List Int) (prompt : String) (e : EngineError)
    (h : (transcribeCore am lang tr td pcm prompt).1 = .error e) :
    (transcribeCore am lang tr td pcm prompt).2 = [] := by
  cases am with
  | none => rfl
  | some m =>
    simp only [transcribeCore] at h ⊢
    split_ifs at h ⊢ <;> simp_all

theorem transcribeCore_ok_spec (am : Option AcousticModel) (lang : String)
    (tr td : Bool) (pcm : List Int) (prompt : String) (N : Nat)
    (h : (transcribeCore am lang tr td pcm prompt).1 = .ok N) :
    (transcribeCore am lang tr td pcm prompt).2.length = N ∧
    (∀ s ∈ (transcribeCore am lang tr td pcm prompt).2,
      0 ≤ s.t0 ∧ s.t0 ≤ s.t1) ∧
    List.Chain' (fun a b => a.t1 ≤ b.t0)
      (transcribeCore am lang tr td pcm prompt).2 := by
  cases am with
  | none => simp [transcribeCore] at h
  | some m =>
    simp only [transcribeCore] at h ⊢
    split_ifs at h ⊢ with h1 h2 h3
    · obtain rfl : (0 : Nat) = N := by simpa using h
      simp
    · obtain rfl :
        (buildSegments m td 0
          (groupTokens (m.decode pcm (effLang lang tr) prompt))).length = N := by
        simpa using h
      exact ⟨rfl, buildSegments_mem m td _ 0, buildSegments_chain m td _ 0⟩

theorem runsAux_mem (bs : List Bool) :
    ∀ (k : Nat) (cur : Option (Nat × Nat)),
      (∀ p : Nat × Nat, cur = some p → p.1 ≤ p.2 ∧ p.2 < k) →
      ∀ r ∈ runsAux bs k cur,
        curLo k cur ≤ r.1 ∧ r.1 ≤ r.2 ∧ r.2 < k + bs.length := by
  induction bs with
  | nil =>
    intro k cur hcur r hr
    cases cur with
    | none => simp [runsAux] at hr
    | some p =>
      simp only [runsAux, List.mem_singleton] at hr
      subst hr
      obtain ⟨h1, h2⟩ := hcur r rfl
      exact ⟨le_refl _, h1, by simpa using h2⟩
  | cons b bs ih =>
    intro k cur hcur r hr
    cases cur with
    | none =>
      cases b with
      | false =>
        simp only [runsAux, Bool.false_eq_true, if_false] at hr
        obtain ⟨h1, h2, h3⟩ := ih (k + 1) none (by intro p hp; cases hp) r hr
        simp only [curLo] at h1 ⊢
        refine ⟨by omega, h2, by simp; omega⟩
      | true =>
        simp only [runsAux, if_true] at hr
        obtain ⟨h1, h2, h3⟩ := ih (k + 1) (some (k, k))
          (by intro p hp; cases hp; exact ⟨le_refl k, Nat.lt_succ_self k⟩) r hr
        simp only [curLo] at h1 ⊢
        refine ⟨h1, h2, by simp; omega⟩
    | some p =>
      obtain ⟨s, e⟩ := p
      obtain ⟨hse, hek⟩ := hcur (s, e) rfl
      simp only at hse hek
      cases b with
      | false =>
        simp only [runsAux, Bool.false_eq_true, if_false] at hr
        rcases List.mem_cons.mp hr with rfl | hr'
        · exact ⟨le_refl _, hse, by simp; omega⟩
        · obtain ⟨h1, h2, h3⟩ := ih (k + 1) none (by intro p hp; cases hp) r hr'
          simp only [curLo] at h1 ⊢
          refine ⟨by omega, h2, by simp; omega⟩
      | true =>
        simp only [runsAux, if_true] at hr
        obtain ⟨h1, h2, h3⟩ := ih (k + 1) (some (s, k))
          (by intro p hp; cases hp; exact ⟨by omega, Nat.lt_succ_self k⟩) r hr
        simp only [curLo] at h1 ⊢
        refine ⟨h1, h2, by simp; omega⟩

theorem runsAux_chain (bs : List Bool) :
    ∀ (k : Nat) (cur : Option (Nat × Nat)),
      (∀ p : Nat × Nat, cur = some p → p.1 ≤ p.2 ∧ p.2 < k) →
      List.Pairwise (fun a b : Nat × Nat => a.2 < b.1) (runsAux bs k cur) := by
  induction bs with
  | nil =>
    intro k cur hcur
    cases cur <;> simp [runsAux]
  | cons b bs ih =>
    intro k cur hcur
    cases cur with
    | none =>
      cases b with
      | false =>
        simp only [runsAux, Bool.false_eq_true, if_false]
        exact ih (k + 1) none (by intro p hp; cases hp)
      | true =>
        simp only [runsAux, if_true]
        exact ih (k + 1) (some (k, k))
          (by intro p hp; cases hp; exact ⟨le_refl k, Nat.lt_succ_self k⟩)
    | some p =>
      obtain ⟨s, e⟩ := p
      obtain ⟨hse, hek⟩ := hcur (s, e) rfl
      simp only at hse hek
      cases b with
      | false =>
        simp only [runsAux, Bool.false_eq_true, if_false]
        rw [List.pairwise_cons]
        constructor
        · intro r hr
          obtain ⟨h1, _, _⟩ :=
            runsAux_mem bs (k + 1) none (by intro p hp; cases hp) r hr
          simp only [curLo] at h1
          simp only
          omega
        · exact ih (k + 1) none (by intro p hp; cases hp)
      | true =>
        simp only [runsAux, if_true]
        exact ih (k + 1) (some (s, k))
          (by intro p hp; cases hp; exact ⟨by omega, Nat.lt_succ_self k⟩)

theorem runsAux_of_false (bs : List Bool) (h : ∀ b ∈ bs, b = false) :
    ∀ k : Nat, runsAux bs k none = [] := by
  induction bs with
  | nil => intro k; rfl
  | cons b bs ih =>
    intro k
    have hb : b = false := h b (List.mem_cons_self b bs)
    subst hb
    simp only [runsAux, Bool.false_eq_true, if_false]
    exact ih (fun x hx => h x (List.mem_cons_of_mem _ hx)) (k + 1)

theorem mergeCloseAux_spec (hi : Nat) (rs : List (Nat × Nat)) :
    ∀ (r : Nat × Nat), r.1 ≤ r.2 → r.2 < hi →
      (∀ x ∈ rs, x.1 ≤ x.2 ∧ x.2 < hi) →
      List.Pairwise (fun a b : Nat × Nat => a.2 < b.1) (r :: rs) →
      (∀ x ∈ mergeCloseAux r rs, r.1 ≤ x.1 ∧ x.1 ≤ x.2 ∧ x.2 < hi) ∧
      List.Pairwise (fun a b : Nat × Nat => a.2 < b.1) (mergeCloseAux r rs) := by
  induction rs with
  | nil =>
    intro r h1 h2 _ _
    constructor
    · intro x hx
      simp only [mergeCloseAux, List.mem_singleton] at hx
      subst hx
      exact ⟨le_refl _, h1, h2⟩
    · simp [mergeCloseAux]
  | cons q rest ih =>
    intro r h1 h2 hmem hpw
    obtain ⟨s1, e1⟩ := r
    obtain ⟨s2, e2⟩ := q
    simp only at h1 h2
    obtain ⟨hq1, hq2⟩ := hmem (s2, e2) (List.mem_cons_self _ _)
    simp only at hq1 hq2
    obtain ⟨hhead, hpw2⟩ := List.pairwise_cons.mp hpw
    have he1s2 : e1 < s2 := hhead (s2, e2) (List.mem_cons_self _ _)
    have hrest : ∀ x ∈ rest, x.1 ≤ x.2 ∧ x.2 < hi :=
      fun x hx => hmem x (List.mem_cons_of_mem _ hx)
    obtain ⟨hhead2, hpwr⟩ := List.pairwise_cons.mp hpw2
    by_cases hgap : s2 - e1 ≤ vadMinSilenceWindows
    · have hrec := ih (s1, e2) (by simp only; omega) (by simpa using hq2)
        hrest
        (List.pairwise_cons.mpr ⟨fun x hx => hhead2 x hx, hpwr⟩)
      simp only [mergeCloseAux, if_pos hgap]
      exact hrec
    · have hrec := ih (s2, e2) hq1 hq2 hrest hpw2
      simp only [mergeCloseAux, if_neg hgap]
      constructor
      · intro x hx
        rcases List.mem_cons.mp hx with rfl | hx'
        · exact ⟨le_refl _, h1, h2⟩
        · obtain ⟨ha, hb, hc⟩ := hrec.1 x hx'
          simp only at ha ⊢
          exact ⟨by omega, hb, hc⟩
      · rw [List.pairwise_cons]
        constructor
        · intro x hx
          obtain ⟨ha, _, _⟩ := hrec.1 x hx
          simp only at ha ⊢
          omega
        · exact hrec.2

theorem mergeClose_spec (hi : Nat) (l : List (Nat × Nat))
    (hmem : ∀ x ∈ l, x.1 ≤ x.2 ∧ x.2 < hi)
    (hpw : List.Pairwise (fun a b : Nat × Nat => a.2 < b.1) l) :
    (∀ x ∈ mergeClose l, x.1 ≤ x.2 ∧ x.2 < hi) ∧
    List.Pairwise (fun a b : Nat × Nat => a.2 < b.1) (mergeClose l) := by
  cases l with
  | nil => simp [mergeClose]
  | cons r rs =>
    have hr := hmem r (List.mem_cons_self _ _)
    have h := mergeCloseAux_spec hi rs r hr.1 hr.2
      (fun x hx => hmem x (List.mem_cons_of_mem _ hx)) hpw
    exact ⟨fun x hx => (h.1 x hx).2, h.2⟩

theorem vadFlags_length (m : VadModel) (pcm : List Int) :
    (vadFlags m pcm).length = numWindows pcm.length := by
  simp [vadFlags]

theorem vadRuns_spec (m : VadModel) (pcm : List Int) :
    (∀ x ∈ vadRuns m pcm, x.1 ≤ x.2 ∧ x.2 < numWindows pcm.length) ∧
    List.Pairwise (fun a b : Nat × Nat => a.2 < b.1) (vadRuns m pcm) := by
  have h0 := runsAux_mem (vadFlags m pcm) 0 none (by intro p hp; cases hp)
  have h1 := runsAux_chain (vadFlags m pcm) 0 none (by intro p hp; cases hp)
  have hmc := mergeClose_spec (numWindows pcm.length)
    (runsOf (vadFlags m pcm))
    (by
      intro x hx
      obtain ⟨_, hb, hc⟩ := h0 x hx
      refine ⟨hb, ?_⟩
      rw [← vadFlags_length m pcm]
      simpa using hc)
    h1
  constructor
  · intro x hx
    simp only [vadRuns] at hx
    exact hmc.1 x (List.mem_filter.mp hx).1
  · simp only [vadRuns]
    exact List.Pairwise.sublist (List.filter_sublist _) hmc.2

theorem winStart_lt (len k : Nat) (h : k < numWindows len) :
    k * vadWindowStep < len := by
  simp only [numWindows, vadWindowStep] at *
  omega

theorem vadSpans_bounds (m : VadModel) (pcm : List Int) :
    ∀ sp ∈ vadSpans m pcm, sp.1 ≤ sp.2 ∧ sp.2 ≤ pcm.length := by
  intro sp hsp
  simp only [vadSpans, List.mem_map] at hsp
  obtain ⟨r, hr, rfl⟩ := hsp
  obtain ⟨hr12, hr2⟩ := (vadRuns_spec m pcm).1 r hr
  have ha : r.1 * vadWindowStep < pcm.length :=
    winStart_lt pcm.length r.1 (lt_of_le_of_lt hr12 hr2)
  have hmul : r.1 * vadWindowStep ≤ r.2 * vadWindowStep :=
    Nat.mul_le_mul_right _ hr12
  constructor
  · simp only [toSpan]
    rw [Nat.le_min]
    constructor
    · omega
    · omega
  · simp only [toSpan]
    exact Nat.min_le_left _ _

theorem vadSpans_sorted (m : VadModel) (pcm : List Int) :
    List.Pairwise (fun a b : Nat × Nat => a.1 ≤ b.1) (vadSpans m pcm) := by
  have h := vadRuns_spec m pcm
  simp only [vadSpans]
  rw [List.pairwise_map]
  refine List.Pairwise.imp_of_mem ?_ h.2
  intro a b ha hb hab
  have h1 := (h.1 a ha).1
  have hle : a.1 ≤ b.1 := by omega
  simp only [toSpan]
  exact Nat.sub_le_sub_right (Nat.mul_le_mul_right _ hle) _

theorem vadSpans_silence (m : VadModel) (pcm : List Int)
    (h : ∀ x ∈ pcm, x = 0) : vadSpans m pcm = [] := by
  have hf : ∀ b ∈ vadFlags m pcm, b = false := by
    intro b hb
    simp only [vadFlags, List.mem_map] at hb
    obtain ⟨k, _, rfl⟩ := hb
    have hz : ∀ x ∈ vadWindow pcm k, x = 0 := by
      intro x hx
      exact h x (List.drop_subset _ _ (List.take_subset _ _ hx))
    have hlt := m.silence_below _ hz
    simp only [decide_eq_false_iff_not]
    omega
  unfold vadSpans vadRuns runsOf
  rw [runsAux_of_false _ hf 0]
  rfl

theorem transcribe_unpack (threads : Nat) (lang : String) (tr td : Bool)
    (pcm : List Int) (prompt : String) (st : EngineState)
    (r : Except EngineError Nat) (st' : EngineState)
    (h : transcribe threads lang tr td pcm prompt st = (r, st')) :
    (transcribeCore st.acousticModel lang tr td pcm prompt).1 = r ∧
    st'.results = (transcribeCore st.acousticModel lang tr td pcm prompt).2 ∧
    st'.acousticModel = st.acousticModel ∧ st'.vadModel = st.vadModel := by
  simp only [transcribe] at h
  injection h with h1 h2
  subst h2
  exact ⟨h1, rfl, rfl, rfl⟩

/-- C1: for every successful transcribe run producing N segments, the
ResultBuffer's segment sequence is temporally ordered and non-overlapping:
for each i < N the segment satisfies t0(i) ≤ t1(i) (and the accessors
return exactly those timestamps), and for i+1 < N, t1(i) ≤ t0(i+1). -/
theorem transcribe_segments_ordered (threads : Nat) (lang : String)
    (tr td : Bool) (pcm : List Int) (prompt : String) (st st' : EngineState)
    (N : Nat) (h : transcribe threads lang tr td pcm prompt st = (.ok N, st'))
    (i : Nat) (hi : i < N) :
    (st'.results.getD i dummySeg).t0 ≤ (st'.results.getD i dummySeg).t1 ∧
    get_segment_t0 st' (i : Int) = some (st'.results.getD i dummySeg).t0 ∧
    get_segment_t1 st' (i : Int) = some (st'.results.getD i dummySeg).t1 ∧
    (i + 1 < N →
      (st'.results.getD i dummySeg).t1 ≤
        (st'.results.getD (i + 1) dummySeg).t0) := by
  obtain ⟨h1, h2, _, _⟩ :=
    transcribe_unpack threads lang tr td pcm prompt st _ st' h
  obtain ⟨hlen, hmem, hchain⟩ :=
    transcribeCore_ok_spec st.acousticModel lang tr td pcm prompt N h1
  rw [← h2] at hlen hmem hchain
  have hiL : i < st'.results.length := by omega
  have hacc := segAt_natCast st' i hiL
  refine ⟨(hmem _ (getD_mem _ i dummySeg hiL)).2, ?_, ?_, ?_⟩
  · simp [get_segment_t0, hacc]
  · simp [get_segment_t1, hacc]
  · intro hi1
    exact chain_getD st'.results i hchain (by omega)

/-- C1 witness: the concrete two-segment run `demoRun` satisfies the
ordering facts at indices 0 and 1. -/
theorem transcribe_segments_ordered_witness :
    ((demoRun.2.results.getD 0 dummySeg).t0 ≤
        (demoRun.2.results.getD 0 dummySeg).t1 ∧
      get_segment_t0 demoRun.2 ((0 : Nat) : Int) =
        some (demoRun.2.results.getD 0 dummySeg).t0 ∧
      get_segment_t1 demoRun.2 ((0 : Nat) : Int) =
        some (demoRun.2.results.getD 0 dummySeg).t1) ∧
    (demoRun.2.results.getD 0 dummySeg).t1 ≤
      (demoRun.2.results.getD (0 + 1) dummySeg).t0 := by
  have h := transcribe_segments_ordered 4 "en" false false [1, 2, 3] ""
    demoState demoRun.2 2 (by rfl) 0 (by omega)
  exact ⟨⟨h.1, h.2.1, h.2.2.1⟩, h.2.2.2 (by omega)⟩

/-- C2: a failed transcribe call leaves the ResultBuffer observable either
as the previous generation unchanged or as an explicit empty generation
(count 0); this model documents and implements the empty-generation
choice, so no partially-written data is ever readable. -/
theorem transcribe_failure_leaves_empty (threads : Nat) (lang : String)
    (tr td : Bool) (pcm : List Int) (prompt : String) (st st' : EngineState)
    (e : EngineError)
    (h : transcribe threads lang tr td pcm prompt st = (.error e, st')) :
    st'.results = st.results ∨
      (st'.results = [] ∧ segment_count st' = 0) := by
  obtain ⟨h1, h2, _, _⟩ :=
    transcribe_unpack threads lang tr td pcm prompt st _ st' h
  right
  have hz : (transcribeCore st.acousticModel lang tr td pcm prompt).2 = [] :=
    transcribeCore_error st.acousticModel lang tr td pcm prompt e h1
  constructor
  · rw [h2, hz]
  · simp [segment_count, h2, hz]

/-- C2 witness: an invalid-language failure against `demoState` leaves an
explicit empty generation. -/
theorem transcribe_failure_leaves_empty_witness :
    (transcribe 4 "zz" false false [1] "" demoState).2.results =
        demoState.results ∨
      ((transcribe 4 "zz" false false [1] "" demoState).2.results = [] ∧
        segment_count (transcribe 4 "zz" false false [1] "" demoState).2 = 0) :=
  transcribe_failure_leaves_empty 4 "zz" false false [1] "" demoState _
    .InvalidLanguageError rfl

/-- C3 counterexample: a transcribe call with an acoustic model loaded and
an empty PCM buffer does not always succeed: with the unrecognized language
code "zz" the §4.3 step-1 validation fires before the step-2 empty-buffer
check, and the call fails with `InvalidLanguageError`. -/
theorem transcribe_empty_buffer_cex :
    demoState.acousticModel.isSome = true ∧
    (transcribe 4 "zz" false false [] "" demoState).1 =
      Except.error EngineError.InvalidLanguageError :=
  ⟨rfl, rfl⟩

/-- C3 (amended): for every transcribe call with an acoustic model loaded,
a recognized (or auto-detect) language, and an empty PCM buffer, the call
succeeds with status `ok` and the resulting segment count is 0. -/
theorem transcribe_empty_buffer_ok (threads : Nat) (lang : String)
    (tr td : Bool) (prompt : String) (st : EngineState) (m : AcousticModel)
    (hm : st.acousticModel = some m) (hl : isValidLang lang = true) :
    (transcribe threads lang tr td [] prompt st).1 = .ok 0 ∧
    segment_count (transcribe threads lang tr td [] prompt st).2 = 0 := by
  unfold transcribe
  simp [transcribeCore, hm, hl, segment_count]

/-- C3 witness: the empty-buffer call with language "en" succeeds with zero
segments. -/
theorem transcribe_empty_buffer_ok_witness :
    (transcribe 4 "en" false false [] "" demoState).1 = .ok 0 ∧
    segment_count (transcribe 4 "en" false false [] "" demoState).2 = 0 :=
  transcribe_empty_buffer_ok 4 "en" false false "" demoState demoModel rfl rfl

/-- C4: every read accessor fails closed: any segment index outside
[0, segment_count) (or token index outside [0, token count of the segment])
yields the defined empty sentinel rather than data, and when the index
preconditions hold the accessors return exactly the stored segment data, so
the error branch is unreachable. -/
theorem accessors_fail_closed (st : EngineState) (i j : Int) :
    (¬ (0 ≤ i ∧ i.toNat < segment_count st) →
      get_segment_text st i = none ∧ get_segment_t0 st i = none ∧
      get_segment_t1 st i = none ∧ n_tokens st i = none ∧
      get_segment_speaker_turn_next st i = none ∧
      get_token_id st i j = none) ∧
    (∀ _h0 : 0 ≤ i, ∀ _h1 : i.toNat < segment_count st,
      get_segment_text st i = some (st.results.getD i.toNat dummySeg).text ∧
      get_segment_t0 st i = some (st.results.getD i.toNat dummySeg).t0 ∧
      get_segment_t1 st i = some (st.results.getD i.toNat dummySeg).t1 ∧
      n_tokens st i =
        some (st.results.getD i.toNat dummySeg).tokens.length ∧
      get_segment_speaker_turn_next st i =
        some (st.results.getD i.toNat dummySeg).speaker_turn_next ∧
      (¬ (0 ≤ j ∧
            j.toNat < (st.results.getD i.toNat dummySeg).tokens.length) →
        get_token_id st i j = none) ∧
      (∀ _hj0 : 0 ≤ j,
        ∀ _hj1 : j.toNat < (st.results.getD i.toNat dummySeg).tokens.length,
        get_token_id st i j =
          some ((st.results.getD i.toNat dummySeg).tokens.getD j.toNat 0))) := by
  constructor
  · intro h
    have hs := segAt_eq_none st i h
    simp [get_segment_text, get_segment_t0, get_segment_t1, n_tokens,
      get_segment_speaker_turn_next, get_token_id, hs]
  · intro h0 h1
    have hs := segAt_eq_some st i h0 h1
    refine ⟨?_, ?_, ?_, ?_, ?_, ?_, ?_⟩
    · simp [get_segment_text, hs]
    · simp [get_segment_t0, hs]
    · simp [get_segment_t1, hs]
    · simp [n_tokens, hs]
    · simp [get_segment_speaker_turn_next, hs]
    · intro hj
      by_cases hj0 : 0 ≤ j
      · have hlen : (st.results.getD i.toNat dummySeg).tokens.length ≤
            j.toNat := by
          push_neg at hj
          exact hj hj0
        unfold get_token_id
        rw [hs]
        show (if 0 ≤ j then
          (st.results.getD i.toNat dummySeg).tokens.get? j.toNat
          else none) = none
        rw [if_pos hj0]
        exact List.get?_eq_none.mpr hlen
      · unfold get_token_id
        rw [hs]
        show (if 0 ≤ j then
          (st.results.getD i.toNat dummySeg).tokens.get? j.toNat
          else none) = none
        rw [if_neg hj0]
    · intro hj0 hj1
      unfold get_token_id
      rw [hs]
      show (if 0 ≤ j then
        (st.results.getD i.toNat dummySeg).tokens.get? j.toNat
        else none) = some ((st.results.getD i.toNat dummySeg).tokens.getD
          j.toNat 0)
      rw [if_pos hj0]
      exact get?_eq_getD_of_lt _ _ 0 hj1

/-- C4 witness: against the two-segment state of `demoRun`, index 5 fails
closed, index 0 reads the stored segment, and token (0,0) reads the stored
token id. -/
theorem accessors_fail_closed_witness :
    get_segment_t0 demoRun.2 5 = none ∧
    get_segment_t0 demoRun.2 0 =
      some (demoRun.2.results.getD (0 : Int).toNat dummySeg).t0 ∧
    get_token_id demoRun.2 0 0 =
      some ((demoRun.2.results.getD (0 : Int).toNat dummySeg).tokens.getD
        (0 : Int).toNat 0) := by
  refine ⟨?_, ?_, ?_⟩
  · exact (((accessors_fail_closed demoRun.2 5 0).1 (by decide)).2.1)
  · exact ((accessors_fail_closed demoRun.2 0 0).2 (by decide)
      (by decide)).2.1
  · exact (((accessors_fail_closed demoRun.2 0 0).2 (by decide)
      (by decide)).2.2.2.2.2.2) (by decide) (by decide)

/-- C5: transcribe with no acoustic model resident fails with
`ModelNotLoadedError` and performs no transcription (the ResultBuffer holds
no segments from the call), and vad with no VAD model resident fails with
`ModelNotLoadedError` and returns no spans. -/
theorem model_not_loaded_errors (st : EngineState) (threads : Nat)
    (lang : String) (tr td : Bool) (pcm pcm2 : List Int) (prompt : String) :
    (st.acousticModel = none →
      (transcribe threads lang tr td pcm prompt st).1 =
        .error .ModelNotLoadedError ∧
      (transcribe threads lang tr td pcm prompt st).2.results = []) ∧
    (st.vadModel = none → vad st pcm2 = .error .ModelNotLoadedError) := by
  constructor
  · intro h
    unfold transcribe transcribeCore
    rw [h]
    exact ⟨rfl, rfl⟩
  · intro h
    unfold vad
    rw [h]

/-- C5 witness: in the initial state (no models resident) both operations
fail with `ModelNotLoadedError`. -/
theorem model_not_loaded_errors_witness :
    ((transcribe 1 "en" false false [1] "" initState).1 =
        .error .ModelNotLoadedError ∧
      (transcribe 1 "en" false false [1] "" initState).2.results = []) ∧
    vad initState [1] = .error .ModelNotLoadedError :=
  ⟨(model_not_loaded_errors initState 1 "en" false false [1] [1] "").1 rfl,
   (model_not_loaded_errors initState 1 "en" false false [1] [1] "").2 rfl⟩

/-- C6: two consecutive transcribe calls with the same model, buffer,
thread count, and parameters produce identical results: the same status and
segment count, and the same t0/t1, text, token ids, and speaker-turn flag
at every index (decoding is a pure function of the model and inputs, and a
run does not disturb the model slots). -/
theorem transcribe_two_run_deterministic (threads : Nat) (lang : String)
    (tr td : Bool) (pcm : List Int) (prompt : String) (st : EngineState) :
    ((transcribe threads lang tr td pcm prompt
        (transcribe threads lang tr td pcm prompt st).2).1 =
      (transcribe threads lang tr td pcm prompt st).1) ∧
    ((transcribe threads lang tr td pcm prompt
        (transcribe threads lang tr td pcm prompt st).2).2.results =
      (transcribe threads lang tr td pcm prompt st).2.results) ∧
    segment_count (transcribe threads lang tr td pcm prompt
        (transcribe threads lang tr td pcm prompt st).2).2 =
      segment_count (transcribe threads lang tr td pcm prompt st).2 ∧
    ∀ i j : Int,
      get_segment_t0 (transcribe threads lang tr td pcm prompt
          (transcribe threads lang tr td pcm prompt st).2).2 i =
        get_segment_t0 (transcribe threads lang tr td pcm prompt st).2 i ∧
      get_segment_t1 (transcribe threads lang tr td pcm prompt
          (transcribe threads lang tr td pcm prompt st).2).2 i =
        get_segment_t1 (transcribe threads lang tr td pcm prompt st).2 i ∧
      get_token_id (transcribe threads lang tr td pcm prompt
          (transcribe threads lang tr td pcm prompt st).2).2 i j =
        get_token_id (transcribe threads lang tr td pcm prompt st).2 i j :=
  ⟨rfl, rfl, rfl, fun _ _ => ⟨rfl, rfl, rfl⟩⟩

/-- C7: with a VAD model resident, vad on a pure-silence (all-zero) buffer
returns the empty span sequence, and on any buffer every returned span lies
within the buffer's bounds (start ≤ end ≤ length) and the spans are in
temporal order. -/
theorem vad_silence_and_span_bounds (st : EngineState) (pcm : List Int)
    (m : VadModel) (hm : st.vadModel = some m) :
    ((∀ x ∈ pcm, x = 0) → vad st pcm = .ok []) ∧
    ∀ spans, vad st pcm = .ok spans →
      (∀ sp ∈ spans, sp.1 ≤ sp.2 ∧ sp.2 ≤ pcm.length) ∧
      List.Pairwise (fun a b : Nat × Nat => a.1 ≤ b.1) spans := by
  constructor
  · intro hz
    simp only [vad, hm]
    rw [vadSpans_silence m pcm hz]
  · intro spans hspans
    simp only [vad, hm] at hspans
    injection hspans with hspans
    subst hspans
    exact ⟨vadSpans_bounds m pcm, vadSpans_sorted m pcm⟩

/-- C7 witness: vad on a 10-sample all-zero buffer with the demo VAD model
returns the empty span sequence. -/
theorem vad_silence_and_span_bounds_witness :
    vad demoState (List.replicate 10 (0 : Int)) = .ok [] :=
  (vad_silence_and_span_bounds demoState (List.replicate 10 (0 : Int))
    demoVadModel rfl).1
    (fun x hx => (List.mem_replicate.mp hx).2)

/-- C8: a transcribe call against a resident model with a recognized
language and finite activations returns the segment count N (a natural, so
N ≥ 0) as its result value, and `segment_count` queried on the state
immediately after the call equals that returned N. -/
theorem transcribe_returns_count (threads : Nat) (lang : String)
    (tr td : Bool) (pcm : List Int) (prompt : String) (st : EngineState)
    (m : AcousticModel) (hm : st.acousticModel = some m)
    (hl : isValidLang lang = true)
    (hf : m.finiteActivations pcm = true) :
    (transcribe threads lang tr td pcm prompt st).1 =
      .ok (segment_count (transcribe threads lang tr td pcm prompt st).2) := by
  unfold transcribe transcribeCore segment_count
  rw [hm]
  simp only [hl, if_true, hf]
  by_cases hp : pcm.isEmpty <;> simp [hp]

/-- C8 witness: the concrete successful run returns exactly the count
readable afterwards. -/
theorem transcribe_returns_count_witness :
    (transcribe 4 "en" false false [1, 2, 3] "" demoState).1 =
      .ok (segment_count
        (transcribe 4 "en" false false [1, 2, 3] "" demoState).2) :=
  transcribe_returns_count 4 "en" false false [1, 2, 3] "" demoState
    demoModel rfl rfl rfl

/-- C9: in the initial state, before any successful transcribe call, the
observable segment count is 0 and every read accessor returns its defined
empty sentinel at every index (no crash, no garbage). -/
theorem initial_state_safe :
    segment_count initState = 0 ∧
    ∀ i j : Int,
      get_segment_text initState i = none ∧
      get_segment_t0 initState i = none ∧
      get_segment_t1 initState i = none ∧
      n_tokens initState i = none ∧
      get_token_id initState i j = none ∧
      get_segment_speaker_turn_next initState i = none := by
  refine ⟨rfl, fun i j => ?_⟩
  have hs : segAt initState i = none := by
    unfold segAt
    split <;> rfl
  simp [get_segment_text, get_segment_t0, get_segment_t1, n_tokens,
    get_token_id, get_segment_speaker_turn_next, hs]

/-- C10: the read accessors take signed integer indices (so negative
indices are expressible at the call boundary, as with the C `int`
parameters of gowhisper.h), and for every negative segment index — or
negative token index in `get_token_id` — every accessor returns its defined
empty sentinel instead of data, in every reachable state. -/
theorem negative_index_fails_closed (st : EngineState) (i j : Int) :
    (i < 0 →
      get_segment_text st i = none ∧ get_segment_t0 st i = none ∧
      get_segment_t1 st i = none ∧ n_tokens st i = none ∧
      get_token_id st i j = none ∧
      get_segment_speaker_turn_next st i = none) ∧
    (j < 0 → get_token_id st i j = none) := by
  constructor
  · intro h
    have hs : segAt st i = none := by
      unfold segAt
      rw [if_neg (by omega : ¬ (0 ≤ i))]
    simp [get_segment_text, get_segment_t0, get_segment_t1, n_tokens,
      get_token_id, get_segment_speaker_turn_next, hs]
  · intro h
    unfold get_token_id
    cases hseg : segAt st i with
    | none => rfl
    | some s => simp [if_neg (by omega : ¬ (0 ≤ j))]

/-- C10 witness: against the populated state of `demoRun`, index -1 and
token index -2 both fail closed. -/
theorem negative_index_fails_closed_witness :
    get_segment_t0 demoRun.2 (-1) = none ∧
    get_token_id demoRun.2 0 (-2) = none :=
  ⟨((negative_index_fails_closed demoRun.2 (-1) 0).1 (by decide)).2.1,
   (negative_index_fails_closed demoRun.2 0 (-2)).2 (by decide)⟩
